import Mathlib

/-
Verification of the image-characterization and PDF-tool code of the
bestpdfmcp repository (src/image_analyzer.py and src/server.py) against
its natural-language specification.

The Python code is shallowly embedded: numpy float statistics are modelled
over the rationals, pixel values over the naturals, and the nondeterministic
pixel sample (np.random.choice without replacement) is passed as an explicit
argument. Environment-dependent effects (file opening, the Tesseract binary,
the captioning model) are modelled as explicit environment values that select
which branch of the Python code runs.
-/

/-! ## Rational statistics helpers mirroring numpy -/

/-- Mean of a list of rationals; numpy ndarray.mean. For the empty list the
division by zero yields 0, a case never reached by the analyzed code. -/
def qmean (l : List ℚ) : ℚ := l.sum / l.length

/-- Population variance, numpy style: mean of squared deviations from the
mean. numpy ndarray.std is the square root of this value. -/
def variance (l : List ℚ) : ℚ := qmean (l.map (fun x => (x - qmean l) ^ 2))

/-- Python round-half-to-even on a rational, as round() applies to floats. -/
def pyRound (q : ℚ) : ℤ :=
  if q - ⌊q⌋ < 1 / 2 then ⌊q⌋
  else if 1 / 2 < q - ⌊q⌋ then ⌊q⌋ + 1
  else if ⌊q⌋ % 2 = 0 then ⌊q⌋ else ⌊q⌋ + 1

/-- Python round(x, 1). -/
def round1 (q : ℚ) : ℚ := (pyRound (10 * q) : ℚ) / 10

/-- Python round(x, 2). -/
def round2 (q : ℚ) : ℚ := (pyRound (100 * q) : ℚ) / 100

/-- Decides t < sqrt v for nonnegative rationals by squaring; used to embed
the comparison of a numpy standard deviation with a threshold without
leaving the rationals. Correctness: sqrtGT_correct below. -/
def sqrtGT (v t : ℚ) : Bool := decide (t * t < v)

/-- First auxiliary quantity of the sqrt-sum comparison: what remains after
moving sqrt c to the right of the inequality and squaring once. -/
def sqrt3R (a b c t : ℚ) : ℚ := t * t + c - a - b

/-- Second auxiliary quantity: what remains after squaring a second time. -/
def sqrt3R2 (a b c t : ℚ) : ℚ :=
  sqrt3R a b c t * sqrt3R a b c t - 4 * (a * b) - 4 * (t * t) * c

/-- Decides t < sqrt a + sqrt b + sqrt c for nonnegative rationals a b c t by
repeated squaring; used to embed the comparison of the mean of the three
per-channel standard deviations with a threshold. Correctness:
sqrt3GT_correct below. -/
def sqrt3GT (a b c t : ℚ) : Bool :=
  if t * t < c then true
  else if t * t = c then decide (0 < a) || decide (0 < b)
  else if sqrt3R a b c t < 0 then true
  else if sqrt3R2 a b c t < 0 then true
  else decide (sqrt3R2 a b c t * sqrt3R2 a b c t < 64 * (t * t) * (a * b * c))

/-! ## The decoded image model (PIL collaborator) -/

/-- An RGB pixel, channel values 0..255. -/
abbrev RGB := ℕ × ℕ × ℕ

/-- Decoded pixel data by PIL color mode. The analyzed code handles the
image through PIL and numpy; the modes needed by the claims are native
grayscale (mode L), RGB and RGBA. -/
inductive ImageData
  | gray (vals : List ℕ)
  | rgb (vals : List RGB)
  | rgba (vals : List (ℕ × ℕ × ℕ × ℕ))
deriving DecidableEq, Repr

/-- PIL Image.convert to RGB: mode L duplicates the channel, mode RGBA
drops the alpha channel memberwise. After this step the numpy array always
has exactly 3 channels. -/
def ImageData.toRGB : ImageData → List RGB
  | .gray vals => vals.map (fun v => (v, v, v))
  | .rgb vals => vals
  | .rgba vals => vals.map (fun p => (p.1, p.2.1, p.2.2.1))

/-- The PIL mode string of the decoded data. -/
def ImageData.modeString : ImageData → String
  | .gray _ => "L"
  | .rgb _ => "RGB"
  | .rgba _ => "RGBA"

/-- A decoded raster image: dimensions, optional declared format and pixel
data (row-major flattened grid). -/
structure RawImage where
  width : ℕ
  height : ℕ
  format : Option String
  data : ImageData
deriving DecidableEq, Repr

/-! ## analyze_image_basic (image_analyzer.py lines 168-304) -/

/-- The flattened list of all channel values of a pixel list, as rationals:
numpy ndarray.mean over an (n, 3) array averages this list. -/
def channelsQ : List RGB → List ℚ
  | [] => []
  | p :: ps => (p.1 : ℚ) :: (p.2.1 : ℚ) :: (p.2.2 : ℚ) :: channelsQ ps

/-- Grayscale luminance np.dot(pixel, [0.2989, 0.5870, 0.1140]); the three
weights sum to 0.9999, not 1. -/
def grayLuma (p : RGB) : ℚ :=
  ((p.1 : ℚ) * 2989 + (p.2.1 : ℚ) * 5870 + (p.2.2 : ℚ) * 1140) / 10000

/-- np.argmax over the three channel values of a pixel: index of the first
channel attaining the maximum (ties go to the lower index). The source
applies argmax to the pixel scaled by 1/255.0, which does not change the
winner. -/
def argmaxChannel (p : RGB) : ℕ :=
  if p.2.1 ≤ p.1 ∧ p.2.2 ≤ p.1 then 0
  else if p.2.2 ≤ p.2.1 then 1
  else 2

/-- Fraction of sampled pixels whose argmax channel is i
(red_dominant / green_dominant / blue_dominant in the source). -/
def hueFraction (sample : List RGB) (i : ℕ) : ℚ :=
  (sample.countP (fun p => argmaxChannel p == i) : ℚ) / sample.length

/-- The dominant-hue label computed by the source for the (always 3-channel)
converted array: red / green / blue when the corresponding winning fraction
exceeds 0.4, tested in that order, else mixed. -/
def dominantHue (sample : List RGB) : String :=
  if (2 : ℚ) / 5 < hueFraction sample 0 then "red"
  else if (2 : ℚ) / 5 < hueFraction sample 1 then "green"
  else if (2 : ℚ) / 5 < hueFraction sample 2 then "blue"
  else "mixed"

/-- The dictionary returned by analyze_image_basic on the success path.
Optional fields mirror keys whose value can be Python None. -/
structure BasicStats where
  width : ℕ
  height : ℕ
  format : String
  color_mode : String
  file_size_bytes : ℕ
  file_size_kb : ℚ
  aspect : ℚ
  is_likely_text : Bool
  dominant_color_type : String
  average_color_rgb : Option (List ℤ)
  is_colorful : Bool
  brightness : Option ℚ
  is_bright : Bool
  is_dark : Bool
  dominant_hue : String
deriving DecidableEq, Repr

/--
analyze_image_basic on a successfully opened image. The random sample drawn
by np.random.choice from the converted pixel array is passed explicitly.

Faithfulness notes, traced from the source:
* the image is converted to RGB up front, so the numpy array always has
  shape (h, w, 3); the source branches for 2-d arrays (grayscale), 4-channel
  arrays (RGBA) and other channel counts at lines 242-255 and 258-261 are
  unreachable, and dominant_color_type is always "color";
* is_colorful is std(axis=0).mean() > 30, i.e. the sum of the three
  per-channel standard deviations of the sample exceeds 90;
* brightness is the mean over every channel value of the sample;
* is_likely_text is computed over the full converted array, not the sample;
* average_color_rgb applies int(), i.e. floor for these nonnegative means;
* aspect (aspect_ratio in the source) and the stored brightness and
  file_size_kb are rounded with Python round().
-/
def analyze_image_basic (img : RawImage) (sample : List RGB) (file_size : ℕ) :
    BasicStats :=
  let arr := img.data.toRGB
  let rVar := variance (sample.map (fun p => (p.1 : ℚ)))
  let gVar := variance (sample.map (fun p => (p.2.1 : ℚ)))
  let bVar := variance (sample.map (fun p => (p.2.2 : ℚ)))
  let brightnessQ := qmean (channelsQ sample)
  let grayVals := arr.map grayLuma
  { width := img.width
    height := img.height
    format := img.format.getD "unknown"
    color_mode := img.data.modeString
    file_size_bytes := file_size
    file_size_kb := round2 ((file_size : ℚ) / 1024)
    aspect := if 0 < img.height then round2 ((img.width : ℚ) / (img.height : ℚ)) else 0
    is_likely_text := sqrtGT (variance grayVals) 50 && decide (qmean grayVals < 128)
    dominant_color_type := "color"
    average_color_rgb := some
      [⌊qmean (arr.map (fun p => (p.1 : ℚ)))⌋,
       ⌊qmean (arr.map (fun p => (p.2.1 : ℚ)))⌋,
       ⌊qmean (arr.map (fun p => (p.2.2 : ℚ)))⌋]
    is_colorful := sqrt3GT rVar gVar bVar 90
    brightness := some (round1 brightnessQ)
    is_bright := decide (180 < brightnessQ)
    is_dark := decide (brightnessQ < 75)
    dominant_hue := dominantHue sample }

/-- Result of analyze_image_basic as seen by callers: either the error-only
dictionary produced when opening or decoding the image raises, or the full
statistics dictionary. -/
inductive BasicResult
  | err (msg : String)
  | ok (stats : BasicStats)
deriving DecidableEq, Repr

/-- Whether the result is the error-only dictionary. -/
def BasicResult.hasError : BasicResult → Bool
  | .err _ => true
  | .ok _ => false

/-- basic_info.get("is_likely_text", False): the error dictionary has no
such key, so the default False is used. -/
def BasicResult.likelyTextDefault : BasicResult → Bool
  | .err _ => false
  | .ok st => st.is_likely_text

/-- Environment of one analyze_image_basic call: either Image.open raises
(unreadable file) with the exception text, or the image decodes and the
sample is drawn. -/
inductive BasicEnv
  | openFail (msg : String)
  | ok (img : RawImage) (sample : List RGB) (file_size : ℕ)
deriving DecidableEq, Repr

/-- analyze_image_basic including its outermost try/except. -/
def analyze_image_basic_result : BasicEnv → BasicResult
  | .openFail msg => .err msg
  | .ok img sample fs => .ok (analyze_image_basic img sample fs)

/-! ## analyze_image_ocr (image_analyzer.py lines 84-165) -/

/-- The dictionary returned by analyze_image_ocr; counts are present only on
the success path. -/
structure OcrOutcome where
  ocr_text : String
  has_text : Bool
  word_count : Option ℕ
  character_count : Option ℕ
  error : Option String
deriving DecidableEq, Repr

/-- Python str.split() with no separator: split on whitespace and drop empty
pieces. -/
def pyWords (s : String) : List String :=
  (s.split Char.isWhitespace).filter (fun w => w ≠ "")

/-- Environment of one analyze_image_ocr call, selecting which branch of the
source runs: Tesseract missing, Tesseract present but its version check
failing, Image.open (or the OCR call) raising, or a successful run on an
opened image of the given size whose stripped OCR output is text. -/
inductive OcrEnv
  | noTesseract
  | versionFail (msg : String)
  | openFail (msg : String)
  | ok (w h : ℕ) (text : String)
deriving DecidableEq, Repr

/-- analyze_image_ocr. Every failure is turned into a dictionary with empty
text and an error string; images narrower or shorter than 50 pixels are
refused before OCR runs. -/
def analyze_image_ocr : OcrEnv → OcrOutcome
  | .noTesseract =>
      { ocr_text := "", has_text := false, word_count := none,
        character_count := none,
        error := some "Tesseract not installed or not in PATH" }
  | .versionFail msg =>
      { ocr_text := "", has_text := false, word_count := none,
        character_count := none,
        error := some ("Tesseract not working: " ++ msg) }
  | .openFail msg =>
      { ocr_text := "", has_text := false, word_count := none,
        character_count := none, error := some msg }
  | .ok w h text =>
      if w < 50 ∨ h < 50 then
        { ocr_text := "", has_text := false, word_count := none,
          character_count := none, error := some "Image too small for OCR" }
      else
        { ocr_text := text, has_text := decide (text ≠ ""),
          word_count := some (if text = "" then 0 else (pyWords text).length),
          character_count := some text.length, error := none }

/-! ## load_vision_model and analyze_image_vision (lines 307-403) -/

/-- The process-wide mutable state of the captioning model:
VISION_MODEL_AVAILABLE (fixed at import time) and _vision_model_loaded. -/
structure VisionModelState where
  available : Bool
  loaded : Bool
deriving DecidableEq, Repr

/-- What one call of load_vision_model returns and does: its boolean result,
the state it leaves behind, and whether it attempted the model load
(BlipProcessor/BlipForConditionalGeneration.from_pretrained). The success of
an attempted load is an environment input. -/
structure LoadResult where
  success : Bool
  state : VisionModelState
  attempted : Bool
deriving DecidableEq, Repr

/-- load_vision_model: returns False without attempting when the
dependencies are missing; returns True without attempting when a previous
load succeeded; otherwise attempts the load, marking _vision_model_loaded
only on success. A failed attempt leaves the state unchanged. -/
def load_vision_model (attemptSucceeds : Bool) (s : VisionModelState) :
    LoadResult :=
  if !s.available then ⟨false, s, false⟩
  else if s.loaded then ⟨true, s, false⟩
  else if attemptSucceeds then ⟨true, ⟨s.available, true⟩, true⟩
  else ⟨false, s, true⟩

/-- The dictionary returned by analyze_image_vision. -/
structure VisionOutcome where
  vision_description : String
  has_description : Option Bool
  model_used : Option String
  error : Option String
deriving DecidableEq, Repr

/-- Environment of one analyze_image_vision call: load_vision_model returned
False, the image or the generation raised, or a caption was produced. -/
inductive VisionEnv
  | unavailable
  | runFail (msg : String)
  | ok (caption : String)
deriving DecidableEq, Repr

/-- analyze_image_vision. -/
def analyze_image_vision : VisionEnv → String → VisionOutcome
  | .unavailable, _ =>
      { vision_description := "", has_description := none, model_used := none,
        error := some "Vision model not available" }
  | .runFail msg, _ =>
      { vision_description := "", has_description := none, model_used := none,
        error := some msg }
  | .ok caption, name =>
      { vision_description := caption, has_description := some (decide (caption ≠ "")),
        model_used := some name, error := none }

/-! ## analyze_image_hybrid (lines 406-515): description synthesis -/

/-- Orientation clause, always produced when basic analysis succeeded
(the success dictionary always carries "dimensions"); the thresholds are
applied to the rounded aspect ratio. -/
def dimsClauseStr (st : BasicStats) : String :=
  "This is a " ++
    (if 2 < st.aspect then "wide, panoramic"
     else if st.aspect < 3 / 5 then "tall, portrait-oriented"
     else "standard") ++
    " image (" ++ toString st.width ++ "x" ++ toString st.height ++ " pixels)"

def dimsClause : BasicResult → List String
  | .err _ => []
  | .ok st => [dimsClauseStr st]

/-- The hue clause text produced for a given non-unknown, non-mixed hue
label (and for "grayscale" its special form). -/
def hueClauseStr (hue : String) : String :=
  if hue = "grayscale" then "The image is grayscale"
  else "The image has a " ++ hue ++ "-dominant color palette"

/-- Hue clause list: skipped when the hue is "unknown" (outer guard of the
source) and also — by the inner if/elif chain — when it is "mixed". -/
def hueClause : BasicResult → List String
  | .err _ => []
  | .ok st =>
    if st.dominant_hue = "unknown" then []
    else if st.dominant_hue ≠ "grayscale" ∧ st.dominant_hue ≠ "mixed" then
      ["The image has a " ++ st.dominant_hue ++ "-dominant color palette"]
    else if st.dominant_hue = "grayscale" then ["The image is grayscale"]
    else []

def colorfulClauseStr (st : BasicStats) : String :=
  if st.is_colorful then "The image is colorful with varied hues"
  else "The image has a more monochromatic or muted color scheme"

def colorfulClause : BasicResult → List String
  | .err _ => []
  | .ok st => [colorfulClauseStr st]

/-- Brightness clause: present when the success dictionary carries a
non-None brightness. -/
def brightClause : BasicResult → List String
  | .err _ => []
  | .ok st =>
    match st.brightness with
    | none => []
    | some b =>
      [if st.is_bright then "The image is bright and well-lit"
       else if st.is_dark then "The image is dark or dimly lit"
       else "The image has moderate brightness (average: " ++
         toString (pyRound b) ++ "/255)"]

/-- Text-likelihood clause: the source uses get("is_likely_text", False), so
one of the two sentences is produced even when basic analysis failed. -/
def textLikelyClauseStr (basic : BasicResult) : String :=
  if basic.likelyTextDefault then
    "The image appears to contain primarily text content"
  else
    "The image appears to be a visual/graphical element rather than text-based"

/-- OCR preview: text over 200 characters is cut to its first 200 characters
plus an ellipsis marker. -/
def ocrPreview (t : String) : String :=
  if 200 < t.length then t.take 200 ++ "..." else t

/-- OCR clause: produced when has_text is truthy and the text is nonempty. -/
def ocrClause (ocr : OcrOutcome) : List String :=
  if ocr.has_text then
    if ocr.ocr_text ≠ "" then
      ["The image contains the following text: \"" ++ ocrPreview ocr.ocr_text ++ "\""]
    else []
  else []

/-- Truthiness of vision_result.get("has_description") where vision_result
is the empty dictionary when use_vision is false. -/
def visionHasDesc (vr : Option VisionOutcome) : Bool :=
  match vr with
  | some v => (v.has_description).getD false
  | none => false

/-- Truthiness of vision_result.get("error"): a present, nonempty string. -/
def visionErrTruthy (vr : Option VisionOutcome) : Bool :=
  match vr with
  | some v => match v.error with
    | some e => decide (e ≠ "")
    | none => false
  | none => false

/-- Vision clause of the description. -/
def visionClause (use_vision : Bool) (vr : Option VisionOutcome) : List String :=
  if use_vision && visionHasDesc vr then
    match vr with
    | some v =>
      if v.vision_description ≠ "" then
        ["Content description: " ++ v.vision_description]
      else []
    | none => []
  else if use_vision && visionErrTruthy vr then
    ["(Vision model analysis was requested but unavailable)"]
  else []

/-- The ordered clause list description_parts built by analyze_image_hybrid. -/
def descriptionParts (ocr : OcrOutcome) (basic : BasicResult)
    (use_vision : Bool) (vr : Option VisionOutcome) : List String :=
  dimsClause basic ++ hueClause basic ++ colorfulClause basic ++
    brightClause basic ++ [textLikelyClauseStr basic] ++ ocrClause ocr ++
    visionClause use_vision vr

/-- Python ". ".join(parts). -/
def joinClauses : List String → String
  | [] => ""
  | [p] => p
  | p :: q :: rest => p ++ ". " ++ joinClauses (q :: rest)

/-- The fallback sentence of the description synthesis. -/
def fallbackDescription : String :=
  "Image analysis completed. This appears to be a visual image with the dimensions and color characteristics described above."

/-- The dictionary returned by analyze_image_hybrid. The OCR and vision
error strings of the sub-results are not part of it; only basic_info keeps
its error string. -/
structure HybridResult where
  ocr_text : String
  basic_info : BasicResult
  vision_description : Option String
  description : String
  has_text : Bool
  has_vision_description : Bool
  is_likely_text : Bool
deriving DecidableEq, Repr

/-- analyze_image_hybrid: runs the three sub-analyses (vision only when
use_vision), synthesizes the description and assembles the result. -/
def analyze_image_hybrid (oe : OcrEnv) (be : BasicEnv) (ve : VisionEnv)
    (use_vision : Bool) (vision_model_name : String) : HybridResult :=
  let ocr_result := analyze_image_ocr oe
  let basic_info := analyze_image_basic_result be
  let vision_result : Option VisionOutcome :=
    if use_vision then some (analyze_image_vision ve vision_model_name) else none
  let parts := descriptionParts ocr_result basic_info use_vision vision_result
  { ocr_text := ocr_result.ocr_text
    basic_info := basic_info
    vision_description :=
      if use_vision then some ((vision_result.map (·.vision_description)).getD "")
      else none
    description :=
      if parts.isEmpty then fallbackDescription else joinClauses parts ++ "."
    has_text := ocr_result.has_text
    has_vision_description :=
      if use_vision then ((vision_result.bind (·.has_description)).getD false)
      else false
    is_likely_text := basic_info.likelyTextDefault }

/-! ## server.py -/

/-- get_page_range (server.py lines 88-101). total_pages is len(doc); the
optional dictionary carries optional 1-indexed start and end values,
defaulted to 1 and total_pages. Arithmetic is over ℤ as Python integers. -/
def get_page_range (total_pages : ℤ)
    (page_range : Option (Option ℤ × Option ℤ)) : ℤ × ℤ :=
  match page_range with
  | none => (0, total_pages - 1)
  | some pr =>
    let start0 := pr.1.getD 1 - 1
    let end0 := pr.2.getD total_pages - 1
    let start := max 0 (min start0 (total_pages - 1))
    let stop := max start (min end0 (total_pages - 1))
    (start, stop)

/-- The per-image size filter of extract_pdf_images (server.py line 224):
an image narrower or shorter than 10 pixels is skipped (continue) before
being saved or analyzed. -/
def image_kept_for_extraction (w h : ℕ) : Bool :=
  !(decide (w < 10) || decide (h < 10))

/-! ## Helper lemmas -/

/-- m occurs as a contiguous substring of s. -/
def IsSubstring (m s : String) : Prop := ∃ l r : String, s = l ++ m ++ r

theorem IsSubstring.append_right {m s : String} (t : String)
    (h : IsSubstring m s) : IsSubstring m (s ++ t) := by
  obtain ⟨l, r, rfl⟩ := h
  exact ⟨l, r ++ t, String.append_assoc _ r t⟩

theorem mem_joinClauses {p : String} :
    ∀ {parts : List String}, p ∈ parts → IsSubstring p (joinClauses parts) := by
  intro parts
  induction parts with
  | nil => intro h; cases h
  | cons q rest ih =>
    intro hmem
    cases rest with
    | nil =>
      have hpq : p = q := by simpa using hmem
      subst hpq
      refine ⟨"", "", ?_⟩
      show p = "" ++ p ++ ""
      rw [String.append_empty, String.empty_append]
    | cons q2 rest2 =>
      rcases List.mem_cons.mp hmem with h | h
      · subst h
        refine ⟨"", ". " ++ joinClauses (q2 :: rest2), ?_⟩
        show p ++ ". " ++ joinClauses (q2 :: rest2) =
          "" ++ p ++ (". " ++ joinClauses (q2 :: rest2))
        rw [String.empty_append, String.append_assoc]
      · obtain ⟨l, r, heq⟩ := ih h
        refine ⟨q ++ ". " ++ l, r, ?_⟩
        show q ++ ". " ++ joinClauses (q2 :: rest2) = q ++ ". " ++ l ++ p ++ r
        rw [heq]
        simp only [String.append_assoc]

/-- A clause belonging to a nonempty clause list occurs inside the final
description string built by analyze_image_hybrid. -/
theorem isSubstring_of_mem_parts {p : String} {parts : List String}
    (h : p ∈ parts) :
    IsSubstring p (if parts.isEmpty then fallbackDescription
      else joinClauses parts ++ ".") := by
  cases parts with
  | nil => cases h
  | cons q rest =>
    simp only [List.isEmpty_cons, Bool.false_eq_true, if_false]
    exact (mem_joinClauses h).append_right "."

theorem pyRound_close (q : ℚ) : |(pyRound q : ℚ) - q| ≤ 1 / 2 := by
  have h1 : (⌊q⌋ : ℚ) ≤ q := Int.floor_le q
  have h2 : q < ⌊q⌋ + 1 := Int.lt_floor_add_one q
  unfold pyRound
  split_ifs with ha hb hc <;> rw [abs_le] <;> constructor <;> push_cast <;>
    linarith

theorem round1_close (q : ℚ) : |round1 q - q| ≤ 1 / 20 := by
  have h := pyRound_close (10 * q)
  unfold round1
  rw [abs_le] at h ⊢
  constructor <;> [linarith; linarith]

theorem sum_of_all_eq {l : List ℚ} {c : ℚ} (h : ∀ x ∈ l, x = c) :
    l.sum = l.length * c := by
  induction l with
  | nil => simp
  | cons x xs ih =>
    have hx : x = c := h x (List.mem_cons_self x xs)
    have hxs : ∀ y ∈ xs, y = c := fun y hy => h y (List.mem_cons_of_mem x hy)
    rw [List.sum_cons, ih hxs, hx, List.length_cons]
    push_cast
    ring

theorem qmean_const {l : List ℚ} {c : ℚ} (hne : l ≠ []) (h : ∀ x ∈ l, x = c) :
    qmean l = c := by
  unfold qmean
  rw [sum_of_all_eq h]
  have hl : (l.length : ℚ) ≠ 0 := by
    have := List.length_pos.mpr hne
    exact_mod_cast Nat.pos_iff_ne_zero.mp this
  rw [mul_comm, mul_div_assoc, div_self hl, mul_one]

theorem variance_of_all_eq {l : List ℚ} {c : ℚ} (h : ∀ x ∈ l, x = c) :
    variance l = 0 := by
  cases l with
  | nil => simp [variance, qmean]
  | cons x xs =>
    have hm : qmean (x :: xs) = c := qmean_const (List.cons_ne_nil x xs) h
    have hall : ∀ z ∈ (x :: xs).map (fun y => (y - qmean (x :: xs)) ^ 2), z = 0 := by
      intro z hz
      rcases List.mem_map.mp hz with ⟨y, hy, rfl⟩
      rw [h y hy, hm]
      ring
    unfold variance
    rw [qmean_const (by simp) hall]

theorem variance_nonneg (l : List ℚ) : 0 ≤ variance l := by
  unfold variance qmean
  apply div_nonneg
  · apply List.sum_nonneg
    intro x hx
    rcases List.mem_map.mp hx with ⟨y, _, rfl⟩
    positivity
  · exact_mod_cast Nat.zero_le _

theorem channelsQ_sum_len {r g b : ℕ} :
    ∀ {sample : List RGB}, (∀ p ∈ sample, p = (r, g, b)) →
      (channelsQ sample).sum = (sample.length : ℚ) * ((r : ℚ) + g + b) ∧
      (channelsQ sample).length = 3 * sample.length := by
  intro sample
  induction sample with
  | nil => intro _; simp [channelsQ]
  | cons p ps ih =>
    intro h
    have hp : p = (r, g, b) := h p (List.mem_cons_self p ps)
    have hps : ∀ q ∈ ps, q = (r, g, b) := fun q hq => h q (List.mem_cons_of_mem p hq)
    obtain ⟨ihs, ihl⟩ := ih hps
    subst hp
    constructor
    · show (r : ℚ) + ((g : ℚ) + ((b : ℚ) + (channelsQ ps).sum)) = _
      rw [ihs, List.length_cons]
      push_cast
      ring
    · show (channelsQ ps).length + 1 + 1 + 1 = 3 * (ps.length + 1)
      rw [ihl]
      ring

theorem qmean_channelsQ_uniform {r g b : ℕ} {sample : List RGB}
    (hne : sample ≠ []) (h : ∀ p ∈ sample, p = (r, g, b)) :
    qmean (channelsQ sample) = ((r : ℚ) + g + b) / 3 := by
  obtain ⟨hs, hl⟩ := channelsQ_sum_len h
  unfold qmean
  rw [hs, hl]
  have hn : (sample.length : ℚ) ≠ 0 := by
    have := List.length_pos.mpr hne
    exact_mod_cast Nat.pos_iff_ne_zero.mp this
  push_cast
  field_simp
  ring

theorem sq_lt_sq_iff_nn {x y : ℝ} (hx : 0 ≤ x) (hy : 0 ≤ y) :
    x < y ↔ x ^ 2 < y ^ 2 := by
  constructor
  · intro h
    nlinarith
  · intro h
    exact lt_of_pow_lt_pow_left₀ 2 hy h

theorem sqrtGT_correct (v t : ℚ) (ht : 0 ≤ t) :
    sqrtGT v t = true ↔ (t : ℝ) < Real.sqrt v := by
  have ht' : (0 : ℝ) ≤ (t : ℝ) := by exact_mod_cast ht
  unfold sqrtGT
  rw [decide_eq_true_eq, Real.lt_sqrt ht']
  constructor
  · intro h
    have h' : ((t * t : ℚ) : ℝ) < ((v : ℚ) : ℝ) := by exact_mod_cast h
    push_cast at h'
    nlinarith
  · intro h
    have h' : ((t * t : ℚ) : ℝ) < ((v : ℚ) : ℝ) := by push_cast; nlinarith
    exact_mod_cast h'

/-- Real form of the third branch of sqrt3GT: when w*w + z - x - y is
negative the sum of roots certainly exceeds w. -/
theorem sqrt3_true3_real {x y z w : ℝ} (hx : 0 ≤ x) (hy : 0 ≤ y) (hz : 0 ≤ z)
    (hw : 0 ≤ w) (hR : w * w + z - x - y < 0) :
    w < Real.sqrt x + Real.sqrt y + Real.sqrt z := by
  have hA0 : 0 ≤ Real.sqrt x := Real.sqrt_nonneg x
  have hB0 : 0 ≤ Real.sqrt y := Real.sqrt_nonneg y
  have hC0 : 0 ≤ Real.sqrt z := Real.sqrt_nonneg z
  have hA2 : Real.sqrt x ^ 2 = x := Real.sq_sqrt hx
  have hB2 : Real.sqrt y ^ 2 = y := Real.sq_sqrt hy
  by_contra hcon
  push_neg at hcon
  have hS : Real.sqrt x + Real.sqrt y ≤ w := by linarith
  have h2' : (Real.sqrt x + Real.sqrt y) ^ 2 ≤ w ^ 2 :=
    pow_le_pow_left₀ (by linarith) hS 2
  have hab : x + y ≤ w ^ 2 := by nlinarith [mul_nonneg hA0 hB0]
  nlinarith

/-- Real form of the fourth branch of sqrt3GT. -/
theorem sqrt3_true4_real {x y z w : ℝ} (hx : 0 ≤ x) (hy : 0 ≤ y) (hz : 0 ≤ z)
    (hw : 0 ≤ w) (hzw : z < w * w) (hR : 0 ≤ w * w + z - x - y)
    (hR2 : (w * w + z - x - y) * (w * w + z - x - y) - 4 * (x * y) -
      4 * (w * w) * z < 0) :
    w < Real.sqrt x + Real.sqrt y + Real.sqrt z := by
  have hA0 : 0 ≤ Real.sqrt x := Real.sqrt_nonneg x
  have hB0 : 0 ≤ Real.sqrt y := Real.sqrt_nonneg y
  have hC0 : 0 ≤ Real.sqrt z := Real.sqrt_nonneg z
  have hA2 : Real.sqrt x ^ 2 = x := Real.sq_sqrt hx
  have hB2 : Real.sqrt y ^ 2 = y := Real.sq_sqrt hy
  have hC2 : Real.sqrt z ^ 2 = z := Real.sq_sqrt hz
  by_contra hcon
  push_neg at hcon
  have hCT : Real.sqrt z < w := by
    have h2' : Real.sqrt z ^ 2 < w ^ 2 := by rw [hC2]; nlinarith
    exact lt_of_pow_lt_pow_left₀ 2 hw h2'
  have hAB : Real.sqrt x + Real.sqrt y ≤ w - Real.sqrt z := by linarith
  have h1' : (Real.sqrt x + Real.sqrt y) ^ 2 ≤ (w - Real.sqrt z) ^ 2 :=
    pow_le_pow_left₀ (by linarith) hAB 2
  have e1 : (Real.sqrt x + Real.sqrt y) ^ 2 =
      x + y + 2 * (Real.sqrt x * Real.sqrt y) := by
    have h' : (Real.sqrt x + Real.sqrt y) ^ 2 =
        Real.sqrt x ^ 2 + Real.sqrt y ^ 2 + 2 * (Real.sqrt x * Real.sqrt y) := by
      ring
    rw [h', hA2, hB2]
  have e2 : (w - Real.sqrt z) ^ 2 = w * w - 2 * (w * Real.sqrt z) + z := by
    have h' : (w - Real.sqrt z) ^ 2 =
        w * w - 2 * (w * Real.sqrt z) + Real.sqrt z ^ 2 := by ring
    rw [h', hC2]
  have hkey : 2 * (Real.sqrt x * Real.sqrt y) + 2 * (w * Real.sqrt z) ≤
      w * w + z - x - y := by linarith
  have hLnn : 0 ≤ 2 * (Real.sqrt x * Real.sqrt y) + 2 * (w * Real.sqrt z) := by
    have ha' := mul_nonneg hA0 hB0
    have hb' := mul_nonneg hw hC0
    linarith
  have hsq : (2 * (Real.sqrt x * Real.sqrt y) + 2 * (w * Real.sqrt z)) ^ 2 ≤
      (w * w + z - x - y) ^ 2 := pow_le_pow_left₀ hLnn hkey 2
  have e3 : (2 * (Real.sqrt x * Real.sqrt y) + 2 * (w * Real.sqrt z)) ^ 2 =
      4 * (x * y) + 4 * (w * w) * z +
        8 * w * (Real.sqrt x * Real.sqrt y * Real.sqrt z) := by
    have h' : (2 * (Real.sqrt x * Real.sqrt y) + 2 * (w * Real.sqrt z)) ^ 2 =
        4 * (Real.sqrt x ^ 2 * Real.sqrt y ^ 2) +
          4 * (w * w) * Real.sqrt z ^ 2 +
          8 * w * (Real.sqrt x * Real.sqrt y * Real.sqrt z) := by ring
    rw [h', hA2, hB2, hC2]
  rw [e3] at hsq
  have hK0 : 0 ≤ 8 * w * (Real.sqrt x * Real.sqrt y * Real.sqrt z) := by
    have h1 := mul_nonneg (mul_nonneg hA0 hB0) hC0
    have h2 := mul_nonneg hw h1
    linarith
  nlinarith

/-- Real form of the final branch of sqrt3GT: under the side conditions
accumulated by the earlier branches, the fully squared rational comparison
is equivalent to the sqrt-sum comparison. -/
theorem sqrt3_final_real {x y z w : ℝ} (hx : 0 ≤ x) (hy : 0 ≤ y) (hz : 0 ≤ z)
    (hw : 0 ≤ w) (hzw : z < w * w) (hR : 0 ≤ w * w + z - x - y)
    (hR2 : 0 ≤ (w * w + z - x - y) * (w * w + z - x - y) - 4 * (x * y) -
      4 * (w * w) * z) :
    ((w * w + z - x - y) * (w * w + z - x - y) - 4 * (x * y) -
        4 * (w * w) * z) *
      ((w * w + z - x - y) * (w * w + z - x - y) - 4 * (x * y) -
        4 * (w * w) * z) <
      64 * (w * w) * (x * y * z) ↔
    w < Real.sqrt x + Real.sqrt y + Real.sqrt z := by
  have hA0 : 0 ≤ Real.sqrt x := Real.sqrt_nonneg x
  have hB0 : 0 ≤ Real.sqrt y := Real.sqrt_nonneg y
  have hC0 : 0 ≤ Real.sqrt z := Real.sqrt_nonneg z
  have hA2 : Real.sqrt x ^ 2 = x := Real.sq_sqrt hx
  have hB2 : Real.sqrt y ^ 2 = y := Real.sq_sqrt hy
  have hC2 : Real.sqrt z ^ 2 = z := Real.sq_sqrt hz
  set A := Real.sqrt x with hAdef
  set B := Real.sqrt y with hBdef
  set C := Real.sqrt z with hCdef
  set R := w * w + z - x - y with hRdef
  set R2 := R * R - 4 * (x * y) - 4 * (w * w) * z with hR2def
  have hCT : C < w := by
    have h2' : C ^ 2 < w ^ 2 := by rw [hC2]; nlinarith
    exact lt_of_pow_lt_pow_left₀ 2 hw h2'
  have e1 : (A + B) ^ 2 = x + y + 2 * (A * B) := by
    have h' : (A + B) ^ 2 = A ^ 2 + B ^ 2 + 2 * (A * B) := by ring
    rw [h', hA2, hB2]
  have e2 : (w - C) ^ 2 = w * w - 2 * (w * C) + z := by
    have h' : (w - C) ^ 2 = w * w - 2 * (w * C) + C ^ 2 := by ring
    rw [h', hC2]
  have hLnn : 0 ≤ 2 * (A * B) + 2 * (w * C) := by
    have ha' := mul_nonneg hA0 hB0
    have hb' := mul_nonneg hw hC0
    linarith
  have e3 : (2 * (A * B) + 2 * (w * C)) ^ 2 =
      4 * (x * y) + 4 * (w * w) * z + 8 * w * (A * B * C) := by
    have h' : (2 * (A * B) + 2 * (w * C)) ^ 2 =
        4 * (A ^ 2 * B ^ 2) + 4 * (w * w) * C ^ 2 + 8 * w * (A * B * C) := by
      ring
    rw [h', hA2, hB2, hC2]
  have hK0 : 0 ≤ 8 * w * (A * B * C) := by
    have h1 := mul_nonneg (mul_nonneg hA0 hB0) hC0
    have h2 := mul_nonneg hw h1
    linarith
  have step1 : (w < A + B + C) ↔ (w - C < A + B) := by
    constructor <;> intro h <;> linarith
  have step2 : (w - C < A + B) ↔ ((w - C) ^ 2 < (A + B) ^ 2) :=
    sq_lt_sq_iff_nn (by linarith) (by linarith)
  have step3 : ((w - C) ^ 2 < (A + B) ^ 2) ↔ (R < 2 * (A * B) + 2 * (w * C)) := by
    rw [e1, e2, hRdef]
    constructor <;> intro h <;> linarith
  have step4 : (R < 2 * (A * B) + 2 * (w * C)) ↔
      (R ^ 2 < (2 * (A * B) + 2 * (w * C)) ^ 2) :=
    sq_lt_sq_iff_nn hR hLnn
  have step5 : (R ^ 2 < (2 * (A * B) + 2 * (w * C)) ^ 2) ↔
      (R2 < 8 * w * (A * B * C)) := by
    rw [e3, hR2def]
    constructor <;> intro h <;> nlinarith [h]
  have step6 : (R2 < 8 * w * (A * B * C)) ↔
      (R2 ^ 2 < (8 * w * (A * B * C)) ^ 2) :=
    sq_lt_sq_iff_nn hR2 hK0
  have e4 : (8 * w * (A * B * C)) ^ 2 = 64 * (w * w) * (x * y * z) := by
    have h' : (8 * w * (A * B * C)) ^ 2 =
        64 * (w * w) * (A ^ 2 * (B ^ 2 * C ^ 2)) := by ring
    rw [h', hA2, hB2, hC2]
    ring
  have full : (w < A + B + C) ↔ (R2 ^ 2 < 64 * (w * w) * (x * y * z)) :=
    step1.trans (step2.trans (step3.trans (step4.trans (step5.trans
      (step6.trans (by rw [e4]))))))
  rw [show R2 * R2 = R2 ^ 2 by ring]
  exact full.symm

/-- Correctness of the rational sqrt-sum comparison: sqrt3GT decides whether
the sum of the three square roots exceeds t. -/
theorem sqrt3GT_correct (a b c t : ℚ) (ha : 0 ≤ a) (hb : 0 ≤ b) (hc : 0 ≤ c)
    (ht : 0 ≤ t) :
    sqrt3GT a b c t = true ↔
      (t : ℝ) < Real.sqrt a + Real.sqrt b + Real.sqrt c := by
  have hx : (0 : ℝ) ≤ (a : ℝ) := by exact_mod_cast ha
  have hy : (0 : ℝ) ≤ (b : ℝ) := by exact_mod_cast hb
  have hz : (0 : ℝ) ≤ (c : ℝ) := by exact_mod_cast hc
  have hw : (0 : ℝ) ≤ (t : ℝ) := by exact_mod_cast ht
  unfold sqrt3GT
  split_ifs with h1 h2 h3 h4
  · refine iff_of_true rfl ?_
    have hc1 : (t : ℝ) * (t : ℝ) < (c : ℝ) := by exact_mod_cast h1
    have hct : (t : ℝ) < Real.sqrt c := by
      have h2' : (t : ℝ) ^ 2 < Real.sqrt (c : ℝ) ^ 2 := by
        rw [Real.sq_sqrt hz]
        nlinarith
      exact lt_of_pow_lt_pow_left₀ 2 (Real.sqrt_nonneg _) h2'
    have hA0 := Real.sqrt_nonneg (a : ℝ)
    have hB0 := Real.sqrt_nonneg (b : ℝ)
    linarith
  · have hc2 : ((c : ℚ) : ℝ) = (t : ℝ) ^ 2 := by
      rw [sq]
      exact_mod_cast h2.symm
    have hCt : Real.sqrt ((c : ℚ) : ℝ) = (t : ℝ) := by
      rw [hc2, Real.sqrt_sq hw]
    simp only [Bool.or_eq_true, decide_eq_true_eq]
    constructor
    · rintro (hpa | hpb)
      · have hApos : 0 < Real.sqrt ((a : ℚ) : ℝ) :=
          Real.sqrt_pos.mpr (by exact_mod_cast hpa)
        have hB0 := Real.sqrt_nonneg ((b : ℚ) : ℝ)
        rw [hCt]
        linarith
      · have hBpos : 0 < Real.sqrt ((b : ℚ) : ℝ) :=
          Real.sqrt_pos.mpr (by exact_mod_cast hpb)
        have hA0 := Real.sqrt_nonneg ((a : ℚ) : ℝ)
        rw [hCt]
        linarith
    · intro hlt
      by_contra hcon
      push_neg at hcon
      obtain ⟨hpa, hpb⟩ := hcon
      have haz : a = 0 := le_antisymm hpa ha
      have hbz : b = 0 := le_antisymm hpb hb
      rw [haz, hbz, hCt] at hlt
      simp only [Rat.cast_zero, Real.sqrt_zero, zero_add] at hlt
      exact lt_irrefl _ hlt
  · refine iff_of_true rfl ?_
    have hR : (t : ℝ) * (t : ℝ) + (c : ℝ) - (a : ℝ) - (b : ℝ) < 0 := by
      have h' : sqrt3R a b c t < 0 := h3
      unfold sqrt3R at h'
      have h'' : ((t * t + c - a - b : ℚ) : ℝ) < 0 := by exact_mod_cast h'
      push_cast at h''
      linarith
    exact sqrt3_true3_real hx hy hz hw hR
  · refine iff_of_true rfl ?_
    have hct : (c : ℝ) < (t : ℝ) * (t : ℝ) := by
      have hle : c ≤ t * t := not_lt.mp h1
      have hlt : c < t * t := lt_of_le_of_ne hle (fun h => h2 h.symm)
      exact_mod_cast hlt
    have hR : (0 : ℝ) ≤ (t : ℝ) * (t : ℝ) + (c : ℝ) - (a : ℝ) - (b : ℝ) := by
      have h' : 0 ≤ sqrt3R a b c t := not_lt.mp h3
      unfold sqrt3R at h'
      have h'' : (0 : ℝ) ≤ ((t * t + c - a - b : ℚ) : ℝ) := by exact_mod_cast h'
      push_cast at h''
      linarith
    have hR2 : ((t : ℝ) * (t : ℝ) + (c : ℝ) - (a : ℝ) - (b : ℝ)) *
        ((t : ℝ) * (t : ℝ) + (c : ℝ) - (a : ℝ) - (b : ℝ)) -
        4 * ((a : ℝ) * (b : ℝ)) - 4 * ((t : ℝ) * (t : ℝ)) * (c : ℝ) < 0 := by
      have h' : sqrt3R2 a b c t < 0 := h4
      unfold sqrt3R2 sqrt3R at h'
      have h'' : (((t * t + c - a - b) * (t * t + c - a - b) - 4 * (a * b) -
          4 * (t * t) * c : ℚ) : ℝ) < 0 := by exact_mod_cast h'
      push_cast at h''
      linarith
    exact sqrt3_true4_real hx hy hz hw hct hR hR2
  · simp only [decide_eq_true_eq]
    have hct : (c : ℝ) < (t : ℝ) * (t : ℝ) := by
      have hle : c ≤ t * t := not_lt.mp h1
      have hlt : c < t * t := lt_of_le_of_ne hle (fun h => h2 h.symm)
      exact_mod_cast hlt
    have hR : (0 : ℝ) ≤ (t : ℝ) * (t : ℝ) + (c : ℝ) - (a : ℝ) - (b : ℝ) := by
      have h' : 0 ≤ sqrt3R a b c t := not_lt.mp h3
      unfold sqrt3R at h'
      have h'' : (0 : ℝ) ≤ ((t * t + c - a - b : ℚ) : ℝ) := by exact_mod_cast h'
      push_cast at h''
      linarith
    have hR2 : (0 : ℝ) ≤ ((t : ℝ) * (t : ℝ) + (c : ℝ) - (a : ℝ) - (b : ℝ)) *
        ((t : ℝ) * (t : ℝ) + (c : ℝ) - (a : ℝ) - (b : ℝ)) -
        4 * ((a : ℝ) * (b : ℝ)) - 4 * ((t : ℝ) * (t : ℝ)) * (c : ℝ) := by
      have h' : 0 ≤ sqrt3R2 a b c t := not_lt.mp h4
      unfold sqrt3R2 sqrt3R at h'
      have h'' : (0 : ℝ) ≤ (((t * t + c - a - b) * (t * t + c - a - b) -
          4 * (a * b) - 4 * (t * t) * c : ℚ) : ℝ) := by exact_mod_cast h'
      push_cast at h''
      linarith
    have key := sqrt3_final_real hx hy hz hw hct hR hR2
    rw [← key]
    constructor
    · intro h
      have h'' : (((sqrt3R2 a b c t) * (sqrt3R2 a b c t) : ℚ) : ℝ) <
          ((64 * (t * t) * (a * b * c) : ℚ) : ℝ) := by exact_mod_cast h
      unfold sqrt3R2 sqrt3R at h''
      push_cast at h''
      linarith
    · intro h
      have h'' : (((sqrt3R2 a b c t) * (sqrt3R2 a b c t) : ℚ) : ℝ) <
          ((64 * (t * t) * (a * b * c) : ℚ) : ℝ) := by
        unfold sqrt3R2 sqrt3R
        push_cast
        linarith
      exact_mod_cast h''

/-- What the embedded is_colorful flag means: the mean of the three
per-channel sample standard deviations (numpy std along axis 0) exceeds 30,
exactly as the source computes it. -/
theorem isColorful_meaning (img : RawImage) (sample : List RGB)
    (file_size : ℕ) :
    (analyze_image_basic img sample file_size).is_colorful = true ↔
      30 < (Real.sqrt (variance (sample.map (fun p => (p.1 : ℚ)))) +
        Real.sqrt (variance (sample.map (fun p => (p.2.1 : ℚ)))) +
        Real.sqrt (variance (sample.map (fun p => (p.2.2 : ℚ))))) / 3 := by
  have h := sqrt3GT_correct (variance (sample.map (fun p => (p.1 : ℚ))))
    (variance (sample.map (fun p => (p.2.1 : ℚ))))
    (variance (sample.map (fun p => (p.2.2 : ℚ)))) 90
    (variance_nonneg _) (variance_nonneg _) (variance_nonneg _) (by norm_num)
  show sqrt3GT _ _ _ 90 = true ↔ _
  rw [h]
  have hcast : ((90 : ℚ) : ℝ) = (90 : ℝ) := by norm_num
  rw [hcast]
  constructor <;> intro h' <;> linarith

/-- What the embedded is_likely_text flag means: the standard deviation of
the luminance-gray values of the full converted array exceeds 50 and their
mean is below 128. -/
theorem isLikelyText_meaning (img : RawImage) (sample : List RGB)
    (file_size : ℕ) :
    (analyze_image_basic img sample file_size).is_likely_text = true ↔
      (50 < Real.sqrt (variance (img.data.toRGB.map grayLuma)) ∧
        qmean (img.data.toRGB.map grayLuma) < 128) := by
  have h := sqrtGT_correct (variance (img.data.toRGB.map grayLuma)) 50
    (by norm_num)
  show (sqrtGT _ 50 && decide (qmean (img.data.toRGB.map grayLuma) < 128))
      = true ↔ _
  rw [Bool.and_eq_true, decide_eq_true_eq, h]
  have hcast : ((50 : ℚ) : ℝ) = (50 : ℝ) := by norm_num
  rw [hcast]

/-- Boolean scanner for contiguous sublists of characters, used to state
that an error message does not occur anywhere in a result string. -/
def isSubListOf (pat : List Char) : List Char → Bool
  | [] => pat.isEmpty
  | c :: rest => pat.isPrefixOf (c :: rest) || isSubListOf pat rest

/-! ## Concrete inputs used by counterexamples and witnesses -/

/-- A 2x2 native grayscale (mode L) image, every pixel value 100. -/
def imgGray2x2 : RawImage := ⟨2, 2, some "PNG", ImageData.gray [100, 100, 100, 100]⟩

/-- The sample np.random.choice draws from imgGray2x2 after RGB conversion:
min(10000, 4) = 4 pixels, all equal. -/
def sampleGray2x2 : List RGB :=
  [(100, 100, 100), (100, 100, 100), (100, 100, 100), (100, 100, 100)]

/-- A 5x5 RGB image, every pixel (100, 100, 100). -/
def imgTiny : RawImage :=
  ⟨5, 5, some "PNG", ImageData.rgb (List.replicate 25 (100, 100, 100))⟩

/-- The full sample drawn from imgTiny: min(10000, 25) = 25 pixels. -/
def sampleTiny : List RGB := List.replicate 25 (100, 100, 100)

/-- A 1x1 RGB image with the single pixel (10, 20, 30). -/
def imgUniform : RawImage := ⟨1, 1, none, ImageData.rgb [(10, 20, 30)]⟩

/-! ## Claim theorems -/

/-- C10: for every open document with at least one page and every page_range
argument (None, or a dictionary with arbitrary integer start and/or end
values), get_page_range returns a pair (start, end) of 0-based indices with
0 ≤ start ≤ end ≤ total_pages - 1. -/
theorem C10_page_range_bounds (total : ℤ) (pr : Option (Option ℤ × Option ℤ))
    (htotal : 1 ≤ total) :
    0 ≤ (get_page_range total pr).1 ∧
      (get_page_range total pr).1 ≤ (get_page_range total pr).2 ∧
      (get_page_range total pr).2 ≤ total - 1 := by
  cases pr with
  | none =>
    simp only [get_page_range]
    omega
  | some p =>
    obtain ⟨s, e⟩ := p
    cases s <;> cases e <;> simp only [get_page_range, Option.getD] <;> omega

theorem C10_page_range_bounds_witness :
    0 ≤ (get_page_range 3 (some (some (-5), some 99))).1 ∧
      (get_page_range 3 (some (some (-5), some 99))).1 ≤
        (get_page_range 3 (some (some (-5), some 99))).2 ∧
      (get_page_range 3 (some (some (-5), some 99))).2 ≤ 3 - 1 :=
  C10_page_range_bounds 3 (some (some (-5), some 99)) (by norm_num)

/-- C4 counterexample: after a failed load attempt (initial state: deps
available, nothing loaded), a second call attempts the model load again, so
the failure is not cached. -/
theorem C4_failed_load_retried :
    (load_vision_model false ⟨true, false⟩).attempted = true ∧
    (load_vision_model false ⟨true, false⟩).success = false ∧
    (load_vision_model false (load_vision_model false ⟨true, false⟩).state).attempted = true :=
  ⟨rfl, rfl, rfl⟩

/-- C4 amended: only a successful initialization is cached. When the
dependencies are missing no attempt is ever made; when a previous load
succeeded, calls return True without attempting; but while no load has
succeeded, every call with available dependencies re-attempts the load, and
the loaded flag records only the success of the current attempt. -/
theorem C4_load_success_only_cached (s : VisionModelState) (b : Bool) :
    (s.available = false → load_vision_model b s = ⟨false, s, false⟩) ∧
    (s.available = true → s.loaded = true → load_vision_model b s = ⟨true, s, false⟩) ∧
    (s.available = true → s.loaded = false →
      (load_vision_model b s).attempted = true ∧
      (load_vision_model b s).state.loaded = b) := by
  obtain ⟨av, ld⟩ := s
  cases av <;> cases ld <;> cases b <;>
    exact ⟨fun h => by simp_all [load_vision_model],
      fun h h' => by simp_all [load_vision_model],
      fun h h' => by simp_all [load_vision_model]⟩

theorem C4_load_success_only_cached_witness :
    load_vision_model true ⟨true, true⟩ = ⟨true, ⟨true, true⟩, false⟩ ∧
    (load_vision_model false ⟨true, false⟩).attempted = true := by
  have h1 := C4_load_success_only_cached ⟨true, true⟩ true
  have h2 := C4_load_success_only_cached ⟨true, false⟩ false
  exact ⟨h1.2.1 rfl rfl, (h2.2.2 rfl rfl).1⟩

/-- C2: evaluation of the code on a native grayscale image. Because
analyze_image_basic converts every image to RGB before the hue analysis,
the source branch labeling grayscale images "grayscale" is unreachable: all
three channels tie, argmax picks channel 0, and the label is "red". -/
theorem C2_grayscale_hue_is_red :
    imgGray2x2.data.modeString = "L" ∧
    (analyze_image_basic imgGray2x2 sampleGray2x2 57).dominant_hue = "red" ∧
    (analyze_image_basic imgGray2x2 sampleGray2x2 57).dominant_hue ≠ "grayscale" := by
  have h0 : hueFraction sampleGray2x2 0 = 1 := by
    unfold hueFraction sampleGray2x2
    simp [List.countP_cons, List.countP_nil, argmaxChannel]
  have hred : (analyze_image_basic imgGray2x2 sampleGray2x2 57).dominant_hue = "red" := by
    show dominantHue sampleGray2x2 = "red"
    unfold dominantHue
    rw [h0, if_pos (by norm_num)]
  refine ⟨rfl, hred, ?_⟩
  rw [hred]
  decide

/-- C3 counterexample: analyze_image_basic itself imposes no 10-pixel
minimum: on a 5x5 image it returns the full statistics with no error and
with the numeric fields present. -/
theorem C3_small_image_not_rejected :
    imgTiny.width = 5 ∧
    (analyze_image_basic_result (.ok imgTiny sampleTiny 75)).hasError = false ∧
    (analyze_image_basic imgTiny sampleTiny 75).brightness.isSome = true ∧
    (analyze_image_basic imgTiny sampleTiny 75).average_color_rgb.isSome = true :=
  ⟨rfl, rfl, rfl, rfl⟩

/-- C3 amended: the 10-pixel minimum lives in the extraction pipeline of
extract_pdf_images, which skips any image narrower or shorter than 10
pixels before saving or analyzing it; analyze_image_basic itself never
reports an error for a decodable image and always includes the numeric
fields. -/
theorem C3_min_size_enforced_in_pipeline (w h : ℕ) (img : RawImage)
    (sample : List RGB) (fs : ℕ) :
    ((w < 10 ∨ h < 10) → image_kept_for_extraction w h = false) ∧
    (analyze_image_basic_result (.ok img sample fs)).hasError = false ∧
    (analyze_image_basic img sample fs).brightness.isSome = true := by
  refine ⟨?_, rfl, rfl⟩
  intro h'
  unfold image_kept_for_extraction
  rcases h' with h' | h' <;> simp [h']

theorem C3_min_size_enforced_in_pipeline_witness :
    image_kept_for_extraction 5 12 = false ∧
    (analyze_image_basic_result (.ok imgTiny sampleTiny 75)).hasError = false := by
  have h := C3_min_size_enforced_in_pipeline 5 12 imgTiny sampleTiny 75
  exact ⟨h.1 (Or.inl (by norm_num)), h.2.1⟩

/-- C5: for a valid image all of whose (sampled) pixels have the same color,
is_colorful is false and the reported brightness is the mean channel value
of that color up to the tolerance of rounding to one decimal. -/
theorem C5_uniform_color_stats (img : RawImage) (fs : ℕ) (sample : List RGB)
    (r g b : ℕ) (hne : sample ≠ []) (hall : ∀ p ∈ sample, p = (r, g, b)) :
    (analyze_image_basic img sample fs).is_colorful = false ∧
    ∃ q : ℚ, (analyze_image_basic img sample fs).brightness = some q ∧
      |q - (((r : ℚ) + (g : ℚ) + (b : ℚ)) / 3)| ≤ 1 / 20 := by
  constructor
  · show sqrt3GT (variance (sample.map (fun p => (p.1 : ℚ))))
      (variance (sample.map (fun p => (p.2.1 : ℚ))))
      (variance (sample.map (fun p => (p.2.2 : ℚ)))) 90 = false
    have h1 : variance (sample.map (fun p => (p.1 : ℚ))) = 0 := by
      apply variance_of_all_eq (c := (r : ℚ))
      intro x hx
      rcases List.mem_map.mp hx with ⟨p, hp, rfl⟩
      rw [hall p hp]
    have h2 : variance (sample.map (fun p => (p.2.1 : ℚ))) = 0 := by
      apply variance_of_all_eq (c := (g : ℚ))
      intro x hx
      rcases List.mem_map.mp hx with ⟨p, hp, rfl⟩
      rw [hall p hp]
    have h3 : variance (sample.map (fun p => (p.2.2 : ℚ))) = 0 := by
      apply variance_of_all_eq (c := (b : ℚ))
      intro x hx
      rcases List.mem_map.mp hx with ⟨p, hp, rfl⟩
      rw [hall p hp]
    rw [h1, h2, h3]
    simp only [sqrt3GT, sqrt3R2, sqrt3R]
    norm_num
  · refine ⟨round1 (qmean (channelsQ sample)), rfl, ?_⟩
    rw [qmean_channelsQ_uniform hne hall]
    exact round1_close _

theorem C5_uniform_color_stats_witness :
    (analyze_image_basic imgUniform [(10, 20, 30)] 0).is_colorful = false ∧
    ∃ q : ℚ, (analyze_image_basic imgUniform [(10, 20, 30)] 0).brightness = some q ∧
      |q - ((((10 : ℕ) : ℚ) + ((20 : ℕ) : ℚ) + ((30 : ℕ) : ℚ)) / 3)| ≤ 1 / 20 :=
  C5_uniform_color_stats imgUniform 0 [(10, 20, 30)] 10 20 30 (by decide) (by decide)

/-- C6: for every nonempty sample of a 3-channel RGB array, the dominant hue
computed by analyze_image_basic is dominantHue, which labels the image red,
green or blue exactly when some channel wins the per-pixel argmax on a
fraction of sampled pixels exceeding 0.4 (and then the label is such a
channel), and "mixed" otherwise. -/
theorem C6_dominant_hue_rule (sample : List RGB) (img : RawImage) (fs : ℕ)
    (hne : sample ≠ []) :
    (analyze_image_basic img sample fs).dominant_hue = dominantHue sample ∧
    (((2 : ℚ) / 5 < hueFraction sample 0 ∨ (2 : ℚ) / 5 < hueFraction sample 1 ∨
        (2 : ℚ) / 5 < hueFraction sample 2) →
      ((dominantHue sample = "red" ∧ (2 : ℚ) / 5 < hueFraction sample 0) ∨
       (dominantHue sample = "green" ∧ (2 : ℚ) / 5 < hueFraction sample 1) ∨
       (dominantHue sample = "blue" ∧ (2 : ℚ) / 5 < hueFraction sample 2))) ∧
    (¬((2 : ℚ) / 5 < hueFraction sample 0 ∨ (2 : ℚ) / 5 < hueFraction sample 1 ∨
        (2 : ℚ) / 5 < hueFraction sample 2) →
      dominantHue sample = "mixed") := by
  refine ⟨rfl, ?_, ?_⟩
  · intro h
    unfold dominantHue
    split_ifs with h1 h2 h3
    · exact Or.inl ⟨rfl, h1⟩
    · exact Or.inr (Or.inl ⟨rfl, h2⟩)
    · exact Or.inr (Or.inr ⟨rfl, h3⟩)
    · tauto
  · intro h
    push_neg at h
    unfold dominantHue
    rw [if_neg (not_lt.mpr h.1), if_neg (not_lt.mpr h.2.1),
      if_neg (not_lt.mpr h.2.2)]

theorem C6_dominant_hue_rule_witness :
    (dominantHue [((255 : ℕ), (0 : ℕ), (0 : ℕ))] = "red" ∧
      (2 : ℚ) / 5 < hueFraction [(255, 0, 0)] 0) ∨
    (dominantHue [((255 : ℕ), (0 : ℕ), (0 : ℕ))] = "green" ∧
      (2 : ℚ) / 5 < hueFraction [(255, 0, 0)] 1) ∨
    (dominantHue [((255 : ℕ), (0 : ℕ), (0 : ℕ))] = "blue" ∧
      (2 : ℚ) / 5 < hueFraction [(255, 0, 0)] 2) := by
  have h := C6_dominant_hue_rule [(255, 0, 0)] imgUniform 0 (by decide)
  have hfr : hueFraction [((255 : ℕ), (0 : ℕ), (0 : ℕ))] 0 = 1 := by
    unfold hueFraction
    simp [List.countP_cons, List.countP_nil, argmaxChannel]
  exact h.2.1 (Or.inl (by rw [hfr]; norm_num))

theorem qmean_map_mul (l : List ℚ) (k : ℚ) :
    qmean (l.map (fun x => x * k)) = qmean l * k := by
  have hs : (l.map (fun x => x * k)).sum = l.sum * k := by
    induction l with
    | nil => simp
    | cons x xs ih =>
      simp only [List.map_cons, List.sum_cons, ih]
      ring
  unfold qmean
  rw [hs, List.length_map]
  ring

theorem variance_map_mul (l : List ℚ) (k : ℚ) :
    variance (l.map (fun x => x * k)) = variance l * (k * k) := by
  unfold variance
  rw [qmean_map_mul]
  have hmap : (l.map (fun x => x * k)).map (fun x => (x - qmean l * k) ^ 2) =
      (l.map (fun x => (x - qmean l) ^ 2)).map (fun x => x * (k * k)) := by
    simp only [List.map_map]
    apply List.map_congr_left
    intro x _
    simp only [Function.comp_apply]
    ring
  rw [hmap, qmean_map_mul]

/-- The 10x10 native grayscale image of the C7 failing input: 50 pixels of
value 255, 49 of value 0 and one of value 50, so that the channel mean is
exactly 128. -/
def valsC7 : List ℕ := List.replicate 50 255 ++ List.replicate 49 0 ++ [50]

def imgC7 : RawImage := ⟨10, 10, some "PNG", ImageData.gray valsC7⟩

/-- The sample drawn from imgC7: min(10000, 100) = 100, the whole array. -/
def sampleC7 : List RGB := (ImageData.gray valsC7).toRGB

/-- A second definition following the words of the specification for the
text-likelihood of a native grayscale image: standard deviation of the
grayscale channel values themselves exceeds 50 and their mean is below 128
(the channel used directly, no RGB conversion and no luminance weights).
Stated for comparison with what analyze_image_basic computes. -/
def specTextLikelihoodGray (vals : List ℕ) : Bool :=
  sqrtGT (variance (vals.map (fun v : ℕ => (v : ℚ)))) 50 &&
    decide (qmean (vals.map (fun v : ℕ => (v : ℚ))) < 128)

theorem valsC7_qmean : qmean (valsC7.map (fun v : ℕ => (v : ℚ))) = 128 := by
  have hs : (valsC7.map (fun v : ℕ => (v : ℚ))).sum = 12800 := by
    simp [valsC7, List.map_append, List.map_replicate, List.sum_append,
      List.sum_replicate, nsmul_eq_mul]
    norm_num
  have hl : (valsC7.map (fun v : ℕ => (v : ℚ))).length = 100 := by
    simp [valsC7]
  unfold qmean
  rw [hs, hl]
  norm_num

theorem valsC7_variance : variance (valsC7.map (fun v : ℕ => (v : ℚ))) = 32307 / 2 := by
  unfold variance
  rw [valsC7_qmean]
  have hmap : (valsC7.map (fun v : ℕ => (v : ℚ))).map (fun x => (x - 128) ^ 2) =
      List.replicate 50 (16129 : ℚ) ++ List.replicate 49 (16384 : ℚ) ++
        [(6084 : ℚ)] := by
    simp [valsC7, List.map_append, List.map_replicate, List.map_map]
    norm_num
  rw [hmap]
  unfold qmean
  simp [List.sum_append, List.sum_replicate, nsmul_eq_mul]
  norm_num

/-- C7: evaluation at the failing input. analyze_image_basic routes native
grayscale images through the RGB conversion and the luminance weights, whose
sum is 0.9999, so each gray value is scaled by 0.9999: on valsC7 the code
reports is_likely_text = true (mean 127.9872 < 128, variance well over
2500), while the formula stated by the specification for native grayscale
images is false there (mean exactly 128 is not below 128). -/
theorem C7_native_gray_text_likelihood :
    (analyze_image_basic imgC7 sampleC7 1000).is_likely_text = true ∧
    specTextLikelihoodGray valsC7 = false ∧
    qmean (valsC7.map (fun v : ℕ => (v : ℚ))) = 128 := by
  have hGray : (imgC7.data.toRGB).map grayLuma =
      (valsC7.map (fun v : ℕ => (v : ℚ))).map (fun x => x * (9999 / 10000)) := by
    show (valsC7.map (fun v => (v, v, v))).map grayLuma =
      (valsC7.map (fun v : ℕ => (v : ℚ))).map (fun x => x * (9999 / 10000))
    rw [List.map_map, List.map_map]
    apply List.map_congr_left
    intro v _
    simp only [Function.comp_apply, grayLuma]
    ring
  refine ⟨?_, ?_, valsC7_qmean⟩
  · show (sqrtGT (variance ((imgC7.data.toRGB).map grayLuma)) 50 &&
      decide (qmean ((imgC7.data.toRGB).map grayLuma) < 128)) = true
    rw [hGray, Bool.and_eq_true]
    constructor
    · unfold sqrtGT
      rw [decide_eq_true_eq, variance_map_mul, valsC7_variance]
      norm_num
    · rw [decide_eq_true_eq, qmean_map_mul, valsC7_qmean]
      norm_num
  · unfold specTextLikelihoodGray
    rw [valsC7_qmean]
    rw [show decide ((128 : ℚ) < 128) = false from by norm_num, Bool.and_false]

/-- The success-path statistics record used by the C8 counterexample, with
dominant hue "mixed". -/
def statsMixed : BasicStats :=
  { width := 20, height := 20, format := "PNG", color_mode := "RGB",
    file_size_bytes := 100, file_size_kb := 1, aspect := 1,
    is_likely_text := false, dominant_color_type := "color",
    average_color_rgb := some [100, 100, 100], is_colorful := false,
    brightness := some 100, is_bright := false, is_dark := false,
    dominant_hue := "mixed" }

/-- An OCR outcome with no text, as produced for a blank image. -/
def ocrEmptyOutcome : OcrOutcome :=
  { ocr_text := "", has_text := false, word_count := some 0,
    character_count := some 0, error := none }

/-- C8 counterexample: for a successful analysis whose dominant hue is
"mixed" (which is not "unknown"), the description clause list contains no
hue clause at all: the hue clause list is empty and the parts go straight
from the orientation clause to the colorfulness clause. -/
theorem C8_mixed_hue_clause_skipped :
    statsMixed.dominant_hue = "mixed" ∧
    statsMixed.dominant_hue ≠ "unknown" ∧
    hueClause (.ok statsMixed) = [] ∧
    descriptionParts ocrEmptyOutcome (.ok statsMixed) false none =
      dimsClause (.ok statsMixed) ++ colorfulClause (.ok statsMixed) ++
        brightClause (.ok statsMixed) ++ [textLikelyClauseStr (.ok statsMixed)] := by
  refine ⟨rfl, by decide, by decide, ?_⟩
  show dimsClause (.ok statsMixed) ++ hueClause (.ok statsMixed) ++
      colorfulClause (.ok statsMixed) ++ brightClause (.ok statsMixed) ++
      [textLikelyClauseStr (.ok statsMixed)] ++ ocrClause ocrEmptyOutcome ++
      visionClause false none = _
  rw [show hueClause (.ok statsMixed) = [] from by decide]
  rw [show ocrClause ocrEmptyOutcome = [] from rfl]
  rw [show visionClause false none = [] from rfl]
  simp

/-- C8 amended: the hue clause is skipped when the dominant hue is "unknown"
or "mixed"; for every other hue value it appears in the description parts
directly between the orientation clause and the colorfulness clause. -/
theorem C8_hue_clause_between (st : BasicStats) (ocr : OcrOutcome) (uv : Bool)
    (vr : Option VisionOutcome) (h1 : st.dominant_hue ≠ "unknown")
    (h2 : st.dominant_hue ≠ "mixed") :
    ∃ rest, descriptionParts ocr (.ok st) uv vr =
      dimsClauseStr st :: hueClauseStr st.dominant_hue ::
        colorfulClauseStr st :: rest := by
  refine ⟨brightClause (.ok st) ++ [textLikelyClauseStr (.ok st)] ++
    ocrClause ocr ++ visionClause uv vr, ?_⟩
  have hhue : hueClause (.ok st) = [hueClauseStr st.dominant_hue] := by
    show (if st.dominant_hue = "unknown" then ([] : List String)
      else if st.dominant_hue ≠ "grayscale" ∧ st.dominant_hue ≠ "mixed" then
        ["The image has a " ++ st.dominant_hue ++ "-dominant color palette"]
      else if st.dominant_hue = "grayscale" then ["The image is grayscale"]
      else []) = [hueClauseStr st.dominant_hue]
    unfold hueClauseStr
    by_cases hg : st.dominant_hue = "grayscale"
    · rw [if_neg h1, if_neg (fun hcon => hcon.1 hg), if_pos hg, if_pos hg]
    · rw [if_neg h1, if_pos ⟨hg, h2⟩, if_neg hg]
  have hdims : dimsClause (.ok st) = [dimsClauseStr st] := rfl
  have hcol : colorfulClause (.ok st) = [colorfulClauseStr st] := rfl
  unfold descriptionParts
  rw [hdims, hcol, hhue]
  simp

/-- The statistics record of the C8 witness, hue "red". -/
def statsRed : BasicStats := { statsMixed with dominant_hue := "red" }

theorem C8_hue_clause_between_witness :
    ∃ rest, descriptionParts ocrEmptyOutcome (.ok statsRed) false none =
      dimsClauseStr statsRed :: hueClauseStr statsRed.dominant_hue ::
        colorfulClauseStr statsRed :: rest :=
  C8_hue_clause_between statsRed ocrEmptyOutcome false none (by decide) (by decide)

/-- C9: whenever OCR produced non-empty text on a large-enough image, the
description embeds the OCR clause; text longer than 200 characters is
embedded as exactly its first 200 characters followed by the ellipsis
marker, and text of at most 200 characters is embedded unmodified. -/
theorem C9_ocr_truncation (w h : ℕ) (text : String) (be : BasicEnv)
    (ve : VisionEnv) (uv : Bool) (nm : String) (hw : 50 ≤ w) (hh : 50 ≤ h)
    (hne : text ≠ "") :
    (200 < text.length →
      IsSubstring ("The image contains the following text: \"" ++
        (text.take 200 ++ "...") ++ "\"")
        (analyze_image_hybrid (.ok w h text) be ve uv nm).description) ∧
    (text.length ≤ 200 →
      IsSubstring ("The image contains the following text: \"" ++ text ++ "\"")
        (analyze_image_hybrid (.ok w h text) be ve uv nm).description) := by
  have hocr : analyze_image_ocr (.ok w h text) =
      { ocr_text := text, has_text := decide (text ≠ ""),
        word_count := some (if text = "" then 0 else (pyWords text).length),
        character_count := some text.length, error := none } := by
    simp only [analyze_image_ocr]
    rw [if_neg (by omega)]
  have hoc : ocrClause (analyze_image_ocr (.ok w h text)) =
      ["The image contains the following text: \"" ++ ocrPreview text ++ "\""] := by
    rw [hocr]
    unfold ocrClause
    simp [hne]
  constructor
  · intro hlen
    have hprev : ocrPreview text = text.take 200 ++ "..." := by
      unfold ocrPreview
      rw [if_pos hlen]
    have hmem : ("The image contains the following text: \"" ++
        (text.take 200 ++ "...") ++ "\"") ∈
        descriptionParts (analyze_image_ocr (.ok w h text))
          (analyze_image_basic_result be) uv
          (if uv then some (analyze_image_vision ve nm) else none) := by
      unfold descriptionParts
      rw [hoc, hprev]
      simp
    exact isSubstring_of_mem_parts hmem
  · intro hlen
    have hprev : ocrPreview text = text := by
      unfold ocrPreview
      rw [if_neg (not_lt.mpr hlen)]
    have hmem : ("The image contains the following text: \"" ++ text ++ "\"") ∈
        descriptionParts (analyze_image_ocr (.ok w h text))
          (analyze_image_basic_result be) uv
          (if uv then some (analyze_image_vision ve nm) else none) := by
      unfold descriptionParts
      rw [hoc, hprev]
      simp
    exact isSubstring_of_mem_parts hmem

/-- A 250-character OCR text. -/
def text250 : String := String.mk (List.replicate 250 'a')

set_option maxRecDepth 10000 in
theorem C9_ocr_truncation_witness :
    IsSubstring ("The image contains the following text: \"" ++
      (text250.take 200 ++ "...") ++ "\"")
      (analyze_image_hybrid (.ok 60 60 text250) (.openFail "bad")
        .unavailable false "m").description :=
  (C9_ocr_truncation 60 60 text250 (.openFail "bad") .unavailable false "m"
    (by norm_num) (by norm_num) (by decide)).1 (by decide)

/-- C1 amended: analyze_image_hybrid always returns a result; each
sub-analysis failure is recovered locally and shown through empty or absent
fields of the result (empty ocr_text, has_text false, empty vision
description), but only the basic-analysis failure keeps its error string in
the result (inside basic_info); the OCR and caption error strings of the
sub-results are not propagated into the hybrid result. -/
theorem C1_hybrid_total_and_surfacing (oe : OcrEnv) (be : BasicEnv)
    (ve : VisionEnv) (uv : Bool) (nm : String) :
    (analyze_image_hybrid oe be ve uv nm).ocr_text =
      (analyze_image_ocr oe).ocr_text ∧
    (analyze_image_hybrid oe be ve uv nm).has_text =
      (analyze_image_ocr oe).has_text ∧
    (analyze_image_hybrid oe be ve uv nm).basic_info =
      analyze_image_basic_result be ∧
    ((analyze_image_ocr oe).error.isSome = true →
      (analyze_image_hybrid oe be ve uv nm).ocr_text = "" ∧
      (analyze_image_hybrid oe be ve uv nm).has_text = false) ∧
    (∀ msg, be = .openFail msg →
      (analyze_image_hybrid oe be ve uv nm).basic_info = .err msg) ∧
    (uv = false →
      (analyze_image_hybrid oe be ve uv nm).vision_description = none ∧
      (analyze_image_hybrid oe be ve uv nm).has_vision_description = false) ∧
    (uv = true → (analyze_image_vision ve nm).error.isSome = true →
      (analyze_image_hybrid oe be ve uv nm).vision_description = some "" ∧
      (analyze_image_hybrid oe be ve uv nm).has_vision_description = false) := by
  refine ⟨rfl, rfl, rfl, ?_, ?_, ?_, ?_⟩
  · intro herr
    cases oe with
    | noTesseract => exact ⟨rfl, rfl⟩
    | versionFail m => exact ⟨rfl, rfl⟩
    | openFail m => exact ⟨rfl, rfl⟩
    | ok w h t =>
      show (analyze_image_ocr (.ok w h t)).ocr_text = "" ∧
        (analyze_image_ocr (.ok w h t)).has_text = false
      simp only [analyze_image_ocr] at herr ⊢
      split_ifs at herr ⊢ with hsz
      · exact ⟨rfl, rfl⟩
      all_goals simp at herr
  · intro msg hbe
    subst hbe
    rfl
  · intro huv
    subst huv
    exact ⟨rfl, rfl⟩
  · intro huv herr
    subst huv
    cases ve with
    | unavailable => exact ⟨rfl, rfl⟩
    | runFail m => exact ⟨rfl, rfl⟩
    | ok cap =>
      unfold analyze_image_vision at herr
      simp at herr

theorem C1_hybrid_total_and_surfacing_witness :
    (analyze_image_hybrid .noTesseract (.openFail "x") .unavailable true "m").ocr_text = "" ∧
    (analyze_image_hybrid .noTesseract (.openFail "x") .unavailable true "m").has_text = false ∧
    (analyze_image_hybrid .noTesseract (.openFail "x") .unavailable true "m").basic_info = .err "x" ∧
    (analyze_image_hybrid .noTesseract (.openFail "x") .unavailable true "m").vision_description = some "" ∧
    (analyze_image_hybrid .noTesseract (.openFail "x") .unavailable false "m").vision_description = none := by
  have h1 := C1_hybrid_total_and_surfacing .noTesseract (.openFail "x") .unavailable true "m"
  have h2 := C1_hybrid_total_and_surfacing .noTesseract (.openFail "x") .unavailable false "m"
  exact ⟨(h1.2.2.2.1 (by decide)).1, (h1.2.2.2.1 (by decide)).2,
    h1.2.2.2.2.1 "x" rfl, (h1.2.2.2.2.2.2 rfl (by decide)).1,
    (h2.2.2.2.2.2.1 rfl).1⟩

/-- C1 counterexample: when OCR fails (Tesseract missing), its error string
appears in the OCR sub-result but nowhere in the hybrid result: ocr_text is
empty, has_text is false, and no field of the returned result carries the
string — in particular the description does not contain it. -/
theorem C1_ocr_error_not_in_result :
    (analyze_image_ocr .noTesseract).error =
      some "Tesseract not installed or not in PATH" ∧
    (analyze_image_hybrid .noTesseract (.openFail "bad") .unavailable false "m").ocr_text = "" ∧
    (analyze_image_hybrid .noTesseract (.openFail "bad") .unavailable false "m").has_text = false ∧
    (analyze_image_hybrid .noTesseract (.openFail "bad") .unavailable false "m").basic_info = .err "bad" ∧
    (analyze_image_hybrid .noTesseract (.openFail "bad") .unavailable false "m").vision_description = none ∧
    isSubListOf "Tesseract".data
      (analyze_image_hybrid .noTesseract (.openFail "bad") .unavailable false "m").description.data = false := by
  refine ⟨rfl, rfl, rfl, rfl, rfl, ?_⟩
  decide
